import Mathlib

/-
Verification development for the LocalRank CLI analytics layer
(scripts/localrank.js).  The definitions below are a shallow embedding of
the pure aggregation, trend, scoring and report-composition logic of the
commands portfolio:summary, client:report, prioritize:today,
quick-wins:find and at-risk:clients.  JavaScript numbers are modelled as
rationals, nullable numeric fields as Option values, and the per-scan
detail fetch as the keyword_results field carried on the scan record.
-/

namespace LocalRank

/-- JSON output field that can be missing from the object, present with a
null value, or present with a value.  This distinguishes the two shapes
the script produces for view_url fields. -/
inductive JField (α : Type) where
  | absent : JField α
  | null : JField α
  | val : α → JField α
deriving DecidableEq

/-- Keyword-level result inside a scan detail response. -/
structure KeywordResult where
  keyword : String
  avg_rank : Option ℚ
  best_rank : Option ℚ
  found_count : ℕ
deriving DecidableEq

/-- One scan record, as consumed by the report builders.  business_name
models scan.business?.name and keyword_results models the detail fetch
for the scan uuid. -/
structure Scan where
  uuid : String
  business_name : Option String
  avg_rank : Option ℚ
  created_at : ℕ
  keywords : List String
  public_share_token : Option String
  keyword_results : List KeywordResult
deriving DecidableEq

/-- JavaScript truthiness of a nullable number: null, undefined and 0 are
falsy. -/
def numTruthy : Option ℚ → Bool
  | none => false
  | some x => decide (x ≠ 0)

/-- Numeric value used after a truthiness guard. -/
def numVal (o : Option ℚ) : ℚ := o.getD 0

/-- JavaScript truthiness of a nullable string: null, undefined and the
empty string are falsy. -/
def strTruthy : Option String → Bool
  | none => false
  | some t => decide (t ≠ "")

/-- Math.round on a rational, as it behaves on the values the script
feeds it: half-up rounding, floor of x + 1/2. -/
def jsRound (x : ℚ) : ℤ := ⌊x + 1/2⌋

/-- Math.round(x * 10) / 10, the one-decimal rounding used throughout the
script. -/
def round1 (x : ℚ) : ℚ := (jsRound (x * 10) : ℚ) / 10

/-- Share URL built from a public share token. -/
def shareUrl (t : String) : String := "https://app.localrank.so/share/" ++ t

/-- Grouping key: scan.business?.name || Unknown.  The empty string is
falsy in JavaScript, so it also falls back to Unknown. -/
def keyName (s : Scan) : String :=
  match s.business_name with
  | some n => if n = "" then "Unknown" else n
  | none => "Unknown"

/-- One step of the byBusiness[name].push(scan) accumulation: append the
scan to the first group with this key, or add a fresh group at the end. -/
def insertScan (acc : List (String × List Scan)) (k : String) (s : Scan) :
    List (String × List Scan) :=
  match acc with
  | [] => [(k, [s])]
  | p :: rest => if p.1 = k then (p.1, p.2 ++ [s]) :: rest else p :: insertScan rest k s

/-- The byBusiness grouping loop shared by portfolio:summary,
prioritize:today and at-risk:clients: object insertion order is first
appearance of each business name, each group collects the scans of that name
in input order. -/
def groupByBusiness (l : List Scan) : List (String × List Scan) :=
  l.foldl (fun acc s => insertScan acc (keyName s) s) []

/-- Lookup of a group by key, mirroring byBusiness[name]. -/
def bucket (acc : List (String × List Scan)) (k : String) : Option (List Scan) :=
  (acc.find? (fun p => decide (p.1 = k))).map Prod.snd

/-- Client status in the portfolio summary. -/
inductive Status where
  | improving : Status
  | declining : Status
  | stable : Status
  | new : Status
deriving DecidableEq

/-- Sort rank used by the portfolio summary: declining first. -/
def statusOrder : Status → ℕ
  | Status.declining => 0
  | Status.improving => 1
  | Status.stable => 2
  | Status.new => 3

/-- Per-client entry of the portfolio summary. -/
structure ClientEntry where
  name : String
  status : Status
  avg_rank : Option ℚ
  change : Option ℚ
  view_url : JField String
deriving DecidableEq

/-- Status and raw change computed for one business in portfolio:summary:
with at least two scans and truthy latest and previous avg_rank, the
change is previous minus latest and is classified against the 0.5
thresholds; otherwise the status stays new with no change. -/
def statusChangeOf : List Scan → Status × Option ℚ
  | latest :: prevScan :: _ =>
    if numTruthy latest.avg_rank && numTruthy prevScan.avg_rank then
      (if (0.5 : ℚ) < numVal prevScan.avg_rank - numVal latest.avg_rank then Status.improving
       else if numVal prevScan.avg_rank - numVal latest.avg_rank < -(0.5 : ℚ) then Status.declining
       else Status.stable,
       some (numVal prevScan.avg_rank - numVal latest.avg_rank))
    else (Status.new, none)
  | _ => (Status.new, none)

/-- The summary.clients.push literal of portfolio:summary.  The change
field goes through a JavaScript truthiness check, so a zero change is
emitted as null; view_url is always present, null without a truthy
token.  The empty-scan case is unreachable because groups are never
empty. -/
def clientEntryOf (name : String) (scans : List Scan) : ClientEntry :=
  match scans with
  | [] => { name := name, status := Status.new, avg_rank := none, change := none,
            view_url := JField.null }
  | latest :: _ =>
    { name := name
      status := (statusChangeOf scans).1
      avg_rank := if numTruthy latest.avg_rank then some (round1 (numVal latest.avg_rank)) else none
      change :=
        match (statusChangeOf scans).2 with
        | some c => if c = 0 then none else some (round1 c)
        | none => none
      view_url :=
        if strTruthy latest.public_share_token then
          JField.val (shareUrl (latest.public_share_token.getD ""))
        else JField.null }

/-- Portfolio summary output object. -/
structure Summary where
  total_clients : ℕ
  total_scans : ℕ
  improving : ℕ
  declining : ℕ
  stable : ℕ
  clients : List ClientEntry
  avg_rank_across_portfolio : Option ℚ
deriving DecidableEq

/-- Latest truthy rank contribution of one group to the portfolio-wide
total. -/
def rankContribution : List Scan → ℚ
  | s :: _ => if numTruthy s.avg_rank then numVal s.avg_rank else 0
  | [] => 0

/-- Whether a group counts toward the portfolio-wide average. -/
def rankCounted : List Scan → Bool
  | s :: _ => numTruthy s.avg_rank
  | [] => false

/-- The portfolio:summary command: group, build per-client entries and
counters, average the truthy latest ranks, and sort clients by status
priority with the stable Array.prototype.sort. -/
def portfolioSummary (l : List Scan) : Summary :=
  let groups := groupByBusiness l
  let entries := groups.map (fun p => clientEntryOf p.1 p.2)
  let totalRank : ℚ := (groups.map (fun p => rankContribution p.2)).sum
  let rankCount : ℕ := (groups.filter (fun p => rankCounted p.2)).length
  { total_clients := groups.length
    total_scans := l.length
    improving := (entries.filter (fun e => decide (e.status = Status.improving))).length
    declining := (entries.filter (fun e => decide (e.status = Status.declining))).length
    stable := (entries.filter (fun e => decide (e.status = Status.stable))).length
    clients := List.insertionSort (fun a b => statusOrder a.status ≤ statusOrder b.status) entries
    avg_rank_across_portfolio :=
      if 0 < rankCount then some (round1 (totalRank / (rankCount : ℚ))) else none }

/-- Urgent item of prioritize:today, carrying the rounded ranks of the
reason string. -/
structure UrgentEntry where
  client : String
  dropped_from : ℚ
  dropped_to : ℚ
deriving DecidableEq

/-- Important item of prioritize:today. -/
structure ImportantEntry where
  client : String
  avg_rank : ℚ
deriving DecidableEq

/-- Quick-win item of prioritize:today. -/
structure DailyQuickWin where
  client : String
  keyword : String
  current_rank : ℚ
  positions_to_page_1 : ℚ
deriving DecidableEq

/-- Output of prioritize:today. -/
structure Priorities where
  urgent : List UrgentEntry
  important : List ImportantEntry
  quick_wins : List DailyQuickWin
deriving DecidableEq

/-- The embedded daily quick-win check of prioritize:today:
kw.avg_rank && kw.avg_rank >= 11 && kw.avg_rank <= 15. -/
def isQuickWinDaily (kw : KeywordResult) : Bool :=
  numTruthy kw.avg_rank && decide (11 ≤ numVal kw.avg_rank)
    && decide (numVal kw.avg_rank ≤ 15)

/-- Urgent bucket rule of prioritize:today: business-level drop greater
than 3 between previous and latest scan. -/
def urgentOf (name : String) : List Scan → Option UrgentEntry
  | latest :: prevScan :: _ =>
    if numTruthy latest.avg_rank && numTruthy prevScan.avg_rank
        && decide (3 < numVal latest.avg_rank - numVal prevScan.avg_rank) then
      some { client := name
             dropped_from := round1 (numVal prevScan.avg_rank)
             dropped_to := round1 (numVal latest.avg_rank) }
    else none
  | _ => none

/-- Important bucket rule of prioritize:today: truthy latest rank above
12. -/
def importantOf (name : String) : List Scan → Option ImportantEntry
  | latest :: _ =>
    if numTruthy latest.avg_rank && decide (12 < numVal latest.avg_rank) then
      some { client := name, avg_rank := round1 (numVal latest.avg_rank) }
    else none
  | [] => none

/-- Quick-win bucket rule of prioritize:today: the loop over the latest
keyword results breaks after the first match, which is find?. -/
def dailyQuickWinOf (name : String) : List Scan → Option DailyQuickWin
  | latest :: _ =>
    (latest.keyword_results.find? isQuickWinDaily).map fun kw =>
      { client := name
        keyword := kw.keyword
        current_rank := round1 (numVal kw.avg_rank)
        positions_to_page_1 := round1 (numVal kw.avg_rank - 10) }
  | [] => none

/-- The prioritize:today command: per-business rules in group order, each
bucket truncated to 5. -/
def prioritizeToday (l : List Scan) : Priorities :=
  let groups := groupByBusiness l
  { urgent := (groups.filterMap (fun p => urgentOf p.1 p.2)).take 5
    important := (groups.filterMap (fun p => importantOf p.1 p.2)).take 5
    quick_wins := (groups.filterMap (fun p => dailyQuickWinOf p.1 p.2)).take 5 }

/-- Entry of the quick-wins:find listing. -/
structure QuickWinEntry where
  business_name : String
  keyword : String
  current_rank : ℚ
  positions_to_page_1 : ℚ
  opportunity : String
deriving DecidableEq

/-- Output of quick-wins:find. -/
structure QuickWinsReport where
  quick_wins : List QuickWinEntry
  total : ℕ
deriving DecidableEq

/-- The dedicated quick-win check of quick-wins:find:
kw.avg_rank && kw.avg_rank >= 11 && kw.avg_rank <= 20. -/
def isQuickWinFinder (kw : KeywordResult) : Bool :=
  numTruthy kw.avg_rank && decide (11 ≤ numVal kw.avg_rank)
    && decide (numVal kw.avg_rank ≤ 20)

/-- The quickWins.push literal of quick-wins:find, with the High or
Medium opportunity label at the 15 boundary. -/
def quickWinEntryOf (name : String) (kw : KeywordResult) : QuickWinEntry :=
  { business_name := name
    keyword := kw.keyword
    current_rank := round1 (numVal kw.avg_rank)
    positions_to_page_1 := round1 (numVal kw.avg_rank - 10)
    opportunity := if numVal kw.avg_rank ≤ 15 then "High" else "Medium" }

/-- JavaScript String.prototype.includes on the character sequences. -/
def strIncludes (hay needle : String) : Bool := decide (needle.toList <:+: hay.toList)

/-- The business-name filter predicate of quick-wins:find: lower-cased
name contains the lower-cased filter; a missing business name never
matches. -/
def nameMatches (s : Scan) (f : String) : Bool :=
  match s.business_name with
  | some n => strIncludes n.toLower f
  | none => false

/-- First scan per business, mirroring the
if (!byBusiness[name]) byBusiness[name] = scan loop of quick-wins:find. -/
def firstScanByBusiness (l : List Scan) : List (String × Scan) :=
  l.foldl
    (fun acc s =>
      if acc.any (fun p => decide (p.1 = keyName s)) then acc
      else acc ++ [(keyName s, s)])
    []

/-- The quick-wins:find command: optional name filter, first scan per
business, all keyword results in the [11, 20] window, stable ascending
sort by current rank, truncation to 20 after sorting; total counts the
untruncated list. -/
def quickWinsFind (businessFilter : Option String) (l : List Scan) : QuickWinsReport :=
  let scans :=
    match businessFilter.map String.toLower with
    | some f => if f = "" then l else l.filter (fun s => nameMatches s f)
    | none => l
  let firsts := firstScanByBusiness scans
  let wins := firsts.flatMap
    (fun p => (p.2.keyword_results.filter isQuickWinFinder).map (quickWinEntryOf p.1))
  { quick_wins := (List.insertionSort (fun a b => a.current_rank ≤ b.current_rank) wins).take 20
    total := wins.length }

/-- Structured risk factor of at-risk:clients, carrying the rounded
values interpolated into the factor strings; text rendering itself is
out of scope. -/
inductive RiskFactor where
  | rankingsDropped : ℚ → ℚ → RiskFactor
  | poorVisibility : ℚ → RiskFactor
  | lowEngagement : RiskFactor
deriving DecidableEq

/-- Latest scan rank of a group, scans[0].avg_rank. -/
def latestRank : List Scan → Option ℚ
  | s :: _ => s.avg_rank
  | [] => none

/-- Previous scan rank of a group, scans[1].avg_rank. -/
def prevRank : List Scan → Option ℚ
  | _ :: p :: _ => p.avg_rank
  | _ => none

/-- Ranking-drop risk condition: at least two scans, both ranks truthy,
latest worse than previous by more than 2. -/
def rankingDropCond (scans : List Scan) : Bool :=
  decide (2 ≤ scans.length) && numTruthy (latestRank scans) && numTruthy (prevRank scans)
    && decide (2 < numVal (latestRank scans) - numVal (prevRank scans))

/-- Poor-visibility risk condition: truthy latest rank above 15. -/
def poorVisibilityCond (scans : List Scan) : Bool :=
  numTruthy (latestRank scans) && decide (15 < numVal (latestRank scans))

/-- Low-engagement risk condition: exactly one scan on record. -/
def lowEngagementCond (scans : List Scan) : Bool := decide (scans.length = 1)

/-- The sequential riskFactors.push and riskScore += accumulation of
at-risk:clients. -/
def riskOf (scans : List Scan) : List RiskFactor × ℤ :=
  let st1 : List RiskFactor × ℤ :=
    if rankingDropCond scans then
      ([RiskFactor.rankingsDropped (round1 (numVal (prevRank scans)))
          (round1 (numVal (latestRank scans)))], 3)
    else ([], 0)
  let st2 :=
    if poorVisibilityCond scans then
      (st1.1 ++ [RiskFactor.poorVisibility (round1 (numVal (latestRank scans)))], st1.2 + 2)
    else st1
  if lowEngagementCond scans then (st2.1 ++ [RiskFactor.lowEngagement], st2.2 + 1) else st2

/-- Risk score of one business. -/
def riskScoreOf (scans : List Scan) : ℤ := (riskOf scans).2

/-- Risk factor list of one business. -/
def riskFactorsOf (scans : List Scan) : List RiskFactor := (riskOf scans).1

/-- Entry of the at-risk:clients output. -/
structure AtRiskEntry where
  business_name : String
  risk_score : ℤ
  risk_factors : List RiskFactor
  action : String
deriving DecidableEq

/-- The if (riskScore > 0) atRisk.push of at-risk:clients. -/
def atRiskEntryOf (name : String) (scans : List Scan) : Option AtRiskEntry :=
  if 0 < riskScoreOf scans then
    some { business_name := name
           risk_score := riskScoreOf scans
           risk_factors := riskFactorsOf scans
           action := "Reach out proactively" }
  else none

/-- The atRisk array before sorting, in aggregation order. -/
def atRiskPre (l : List Scan) : List AtRiskEntry :=
  (groupByBusiness l).filterMap (fun p => atRiskEntryOf p.1 p.2)

/-- The at-risk:clients command: positive-score entries sorted by the
stable Array.prototype.sort on descending risk score. -/
def atRiskClients (l : List Scan) : List AtRiskEntry :=
  List.insertionSort (fun a b => b.risk_score ≤ a.risk_score) (atRiskPre l)

/-- Keyword line of the client report latest_scan block. -/
structure KeywordSummary where
  keyword : String
  avg_rank : Option ℚ
  best_rank : Option ℚ
deriving DecidableEq

/-- Win line of the client report. -/
structure WinEntry where
  keyword : String
  from_rank : ℚ
  to_rank : ℚ
  improved_by : ℚ
deriving DecidableEq

/-- Drop line of the client report. -/
structure DropEntry where
  keyword : String
  from_rank : ℚ
  to_rank : ℚ
  dropped_by : ℚ
deriving DecidableEq

/-- The client:report output object.  view_url is an Option because the
script only assigns the key when a truthy token exists; none models the
key being absent from the object. -/
structure ClientReport where
  business_name : Option String
  latest_date : ℕ
  latest_avg_rank : Option ℚ
  latest_keywords : List KeywordSummary
  wins : List WinEntry
  drops : List DropEntry
  total_scans : ℕ
  view_url : Option String
deriving DecidableEq

/-- The prevKwRanks object of client:report: later assignments for the
same keyword overwrite earlier ones, so the last occurrence wins. -/
def prevKwRank (prevScan : Scan) (k : String) : Option ℚ :=
  match prevScan.keyword_results.reverse.find? (fun kw => decide (kw.keyword = k)) with
  | some kw => kw.avg_rank
  | none => none

/-- Wins of client:report: keywords of the latest scan whose truthy
previous and current ranks give a positive change. -/
def winsOf (latest prevScan : Scan) : List WinEntry :=
  latest.keyword_results.filterMap fun kw =>
    if numTruthy (prevKwRank prevScan kw.keyword) && numTruthy kw.avg_rank then
      if 0 < numVal (prevKwRank prevScan kw.keyword) - numVal kw.avg_rank then
        some { keyword := kw.keyword
               from_rank := numVal (prevKwRank prevScan kw.keyword)
               to_rank := numVal kw.avg_rank
               improved_by := round1 (numVal (prevKwRank prevScan kw.keyword) - numVal kw.avg_rank) }
      else none
    else none

/-- Drops of client:report: negative change, magnitude reported. -/
def dropsOf (latest prevScan : Scan) : List DropEntry :=
  latest.keyword_results.filterMap fun kw =>
    if numTruthy (prevKwRank prevScan kw.keyword) && numTruthy kw.avg_rank then
      if numVal (prevKwRank prevScan kw.keyword) - numVal kw.avg_rank < 0 then
        some { keyword := kw.keyword
               from_rank := numVal (prevKwRank prevScan kw.keyword)
               to_rank := numVal kw.avg_rank
               dropped_by := round1 |numVal (prevKwRank prevScan kw.keyword) - numVal kw.avg_rank| }
      else none
    else none

/-- The client:report command on the scans already filtered to the
requested business, newest first as delivered upstream: none models the
no-scans error output; wins and drops are only computed when a second
scan exists. -/
def clientReport (clientScans : List Scan) : Option ClientReport :=
  match clientScans with
  | [] => none
  | latest :: rest =>
    some { business_name := latest.business_name
           latest_date := latest.created_at
           latest_avg_rank := latest.avg_rank
           latest_keywords := latest.keyword_results.map
             (fun kw => { keyword := kw.keyword, avg_rank := kw.avg_rank,
                          best_rank := kw.best_rank })
           wins := match rest with | prevScan :: _ => winsOf latest prevScan | [] => []
           drops := match rest with | prevScan :: _ => dropsOf latest prevScan | [] => []
           total_scans := rest.length + 1
           view_url :=
             if strTruthy latest.public_share_token then
               some (shareUrl (latest.public_share_token.getD ""))
             else none }

/-- Replace an average rank of exactly 0 by an absent one; identity on
every other value. -/
def znorm (o : Option ℚ) : Option ℚ :=
  match o with
  | some x => if x = 0 then none else some x
  | none => none

/-- znorm applied to the rank of a keyword result. -/
def zKw (kw : KeywordResult) : KeywordResult := { kw with avg_rank := znorm kw.avg_rank }

/-- znorm applied to all ranks of a scan record. -/
def zScan (s : Scan) : Scan :=
  { s with avg_rank := znorm s.avg_rank, keyword_results := s.keyword_results.map zKw }

/-- zScan applied to every scan of a group. -/
def zGroup (p : String × List Scan) : String × List Scan := (p.1, p.2.map zScan)

/-- zScan applied to the scan of a first-scan-per-business pair. -/
def zFirst (p : String × Scan) : String × Scan := (p.1, zScan p.2)

/-! Concrete inputs used to exercise the theorems below. -/

/-- Older Acme scan, created first but listed first by the upstream API. -/
def c1scanOld : Scan :=
  { uuid := "u1", business_name := some "Acme", avg_rank := some 8, created_at := 1,
    keywords := [], public_share_token := none, keyword_results := [] }

/-- Newer Acme scan, created later but listed second. -/
def c1scanNew : Scan :=
  { uuid := "u2", business_name := some "Acme", avg_rank := some 4, created_at := 2,
    keywords := [], public_share_token := none, keyword_results := [] }

/-- Upstream list that is not descending by creation time. -/
def c1ex : List Scan := [c1scanOld, c1scanNew]

/-- Upstream list ordered newest first, used for trend witnesses. -/
def c3ex : List Scan := [c1scanNew, c1scanOld]

/-- Single scan with a poor rank, for the at-risk witnesses. -/
def c9scan : Scan :=
  { uuid := "u9", business_name := some "Risky", avg_rank := some 20, created_at := 1,
    keywords := [], public_share_token := none, keyword_results := [] }

/-- Singleton at-risk input. -/
def c9ex : List Scan := [c9scan]

/-- The at-risk entry produced for c9ex: poor visibility plus low
engagement. -/
def c9entry : AtRiskEntry :=
  { business_name := "Risky", risk_score := 3,
    risk_factors := [RiskFactor.poorVisibility (round1 20), RiskFactor.lowEngagement],
    action := "Reach out proactively" }

/-- Keyword result with a given rank, for the quick-win witnesses. -/
def kwAt (r : ℚ) : KeywordResult :=
  { keyword := "plumber", avg_rank := some r, best_rank := none, found_count := 3 }

/-- Scan with one scan on record and no share token. -/
def c7scan : Scan :=
  { uuid := "u7", business_name := some "Solo", avg_rank := some 9, created_at := 5,
    keywords := [], public_share_token := none, keyword_results := [] }

/-- The client report produced for [c7scan]. -/
def c7report : ClientReport :=
  { business_name := some "Solo", latest_date := 5, latest_avg_rank := some 9,
    latest_keywords := [], wins := [], drops := [], total_scans := 1, view_url := none }

/-- Scan without a share token, for the portfolio null counterexample. -/
def c4scan : Scan :=
  { uuid := "u4", business_name := some "NoToken", avg_rank := some 4, created_at := 3,
    keywords := [], public_share_token := none, keyword_results := [] }

/-- Scan with a share token. -/
def c4tok : Scan :=
  { uuid := "u5", business_name := some "Tok", avg_rank := some 4, created_at := 3,
    keywords := [], public_share_token := some "tok123", keyword_results := [] }

/-- The client report produced for [c4tok]. -/
def c4report : ClientReport :=
  { business_name := some "Tok", latest_date := 3, latest_avg_rank := some 4,
    latest_keywords := [], wins := [], drops := [], total_scans := 1,
    view_url := some (shareUrl "tok123") }

/-! Lemmas about the byBusiness grouping. -/

theorem keys_insertScan (acc : List (String × List Scan)) (k : String) (s : Scan) :
    (insertScan acc k s).map Prod.fst =
      if k ∈ acc.map Prod.fst then acc.map Prod.fst else acc.map Prod.fst ++ [k] := by
  induction acc with
  | nil => simp [insertScan]
  | cons p rest ih =>
    by_cases h : p.1 = k
    · simp [insertScan, h]
    · have h3 : ¬ k = p.1 := fun hk => h hk.symm
      simp only [insertScan, if_neg h, List.map_cons, ih, List.mem_cons]
      by_cases h2 : k ∈ rest.map Prod.fst
      · simp [h2]
      · simp [h2, h3]

theorem nodupKeys_insertScan {acc : List (String × List Scan)} (k : String) (s : Scan)
    (h : (acc.map Prod.fst).Nodup) : ((insertScan acc k s).map Prod.fst).Nodup := by
  rw [keys_insertScan]
  by_cases hm : k ∈ acc.map Prod.fst
  · simpa [hm] using h
  · simpa [hm, List.nodup_append] using h

theorem nodupKeys_foldl (l : List Scan) :
    ∀ acc : List (String × List Scan), (acc.map Prod.fst).Nodup →
      ((l.foldl (fun acc s => insertScan acc (keyName s) s) acc).map Prod.fst).Nodup := by
  induction l with
  | nil => intro acc h; simpa using h
  | cons s l ih =>
    intro acc h
    exact ih _ (nodupKeys_insertScan _ _ h)

theorem nodupKeys_groupBy (l : List Scan) : ((groupByBusiness l).map Prod.fst).Nodup :=
  nodupKeys_foldl l [] (by simp)

theorem bucket_insertScan (acc : List (String × List Scan)) (k : String) (s : Scan)
    (k2 : String) :
    bucket (insertScan acc k s) k2 =
      if k2 = k then some ((bucket acc k).getD [] ++ [s]) else bucket acc k2 := by
  induction acc with
  | nil =>
    by_cases h : k2 = k
    · subst h; simp [insertScan, bucket]
    · have h3 : ¬ k = k2 := fun hk => h hk.symm
      simp [insertScan, bucket, h, h3]
  | cons p rest ih =>
    by_cases hp : p.1 = k
    · by_cases h2 : k2 = k
      · subst h2; simp [insertScan, bucket, hp]
      · have h3 : ¬ p.1 = k2 := fun hc => h2 (hc.symm.trans hp)
        have h4 : ¬ k = k2 := fun hc => h2 hc.symm
        simp [insertScan, bucket, hp, h2, h3, h4]
    · by_cases h2 : k2 = k
      · subst h2
        simp only [insertScan, if_neg hp]
        simp [bucket, hp] at ih ⊢
        simpa using ih
      · by_cases hh : p.1 = k2
        · simp [insertScan, bucket, hp, hh, h2]
        · simp only [insertScan, if_neg hp]
          simp [bucket, hh, h2] at ih ⊢
          simpa [h2] using ih

theorem bucket_foldl (l : List Scan) :
    ∀ (acc : List (String × List Scan)) (k : String),
      (bucket (l.foldl (fun acc s => insertScan acc (keyName s) s) acc) k).getD [] =
        (bucket acc k).getD [] ++ l.filter (fun s => decide (keyName s = k)) := by
  induction l with
  | nil => intro acc k; simp
  | cons s l ih =>
    intro acc k
    rw [List.foldl_cons, ih, bucket_insertScan]
    by_cases h : k = keyName s
    · simp [h]
    · have h4 : ¬ keyName s = k := fun hc => h hc.symm
      simp [h, h4]

theorem mem_insertScan_ne_nil {acc : List (String × List Scan)} (k : String) (s : Scan)
    (h : ∀ p ∈ acc, p.2 ≠ []) : ∀ p ∈ insertScan acc k s, p.2 ≠ [] := by
  induction acc with
  | nil => simp [insertScan]
  | cons q rest ih =>
    intro p hp
    by_cases hq : q.1 = k
    · simp only [insertScan, if_pos hq, List.mem_cons] at hp
      rcases hp with hp | hp
      · subst hp; simp
      · exact h p (List.mem_cons_of_mem _ hp)
    · simp only [insertScan, if_neg hq, List.mem_cons] at hp
      rcases hp with hp | hp
      · subst hp; exact h p (List.mem_cons_self _ _)
      · exact ih (fun q hq => h q (List.mem_cons_of_mem _ hq)) p hp

theorem mem_foldl_ne_nil (l : List Scan) :
    ∀ acc : List (String × List Scan), (∀ p ∈ acc, p.2 ≠ []) →
      ∀ p ∈ l.foldl (fun acc s => insertScan acc (keyName s) s) acc, p.2 ≠ [] := by
  induction l with
  | nil => intro acc h; simpa using h
  | cons s l ih =>
    intro acc h
    exact ih _ (mem_insertScan_ne_nil _ _ h)

theorem groupBy_scans_ne_nil {l : List Scan} {k : String} {ss : List Scan}
    (h : (k, ss) ∈ groupByBusiness l) : ss ≠ [] :=
  mem_foldl_ne_nil l [] (by simp) (k, ss) h

theorem bucket_eq_of_mem {acc : List (String × List Scan)} {k : String} {ss : List Scan}
    (hn : (acc.map Prod.fst).Nodup) (hm : (k, ss) ∈ acc) : bucket acc k = some ss := by
  induction acc with
  | nil => cases hm
  | cons p rest ih =>
    rcases List.mem_cons.mp hm with hp | hp
    · subst hp; simp [bucket, List.find?]
    · have hk : k ∈ rest.map Prod.fst := List.mem_map.mpr ⟨(k, ss), hp, rfl⟩
      have hne : ¬ p.1 = k := by
        intro hc
        exact (List.nodup_cons.mp (by simpa using hn)).1 (hc ▸ hk)
      have htl : (rest.map Prod.fst).Nodup := (List.nodup_cons.mp (by simpa using hn)).2
      simpa [bucket, List.find?, hne] using ih htl hp

theorem groupBy_scans_eq_filter {l : List Scan} {k : String} {ss : List Scan}
    (h : (k, ss) ∈ groupByBusiness l) :
    ss = l.filter (fun s => decide (keyName s = k)) := by
  have hb := bucket_eq_of_mem (nodupKeys_groupBy l) h
  have hf := bucket_foldl l [] k
  rw [show (l.foldl (fun acc s => insertScan acc (keyName s) s) []) = groupByBusiness l from rfl,
    hb] at hf
  simpa [bucket] using hf

theorem flat_insertScan (acc : List (String × List Scan)) (k : String) (s : Scan) :
    List.Perm ((insertScan acc k s).map Prod.snd).flatten
      ((acc.map Prod.snd).flatten ++ [s]) := by
  induction acc with
  | nil => simp [insertScan]
  | cons p rest ih =>
    by_cases hp : p.1 = k
    · simp only [insertScan, if_pos hp, List.map_cons, List.flatten_cons, List.append_assoc]
      exact List.Perm.append_left p.2 (List.perm_append_comm)
    · simp only [insertScan, if_neg hp, List.map_cons, List.flatten_cons, List.append_assoc]
      exact List.Perm.append_left p.2 ih

theorem flat_foldl (l : List Scan) :
    ∀ acc : List (String × List Scan),
      List.Perm ((l.foldl (fun acc s => insertScan acc (keyName s) s) acc).map Prod.snd).flatten
        ((acc.map Prod.snd).flatten ++ l) := by
  induction l with
  | nil => intro acc; simp
  | cons s l ih =>
    intro acc
    rw [List.foldl_cons]
    refine (ih _).trans ?_
    have h1 := (flat_insertScan acc (keyName s) s).append_right l
    simpa using h1

theorem groupBy_mem_unique {l : List Scan} {k : String} {ss ss2 : List Scan}
    (h1 : (k, ss) ∈ groupByBusiness l) (h2 : (k, ss2) ∈ groupByBusiness l) : ss = ss2 := by
  have b1 := bucket_eq_of_mem (nodupKeys_groupBy l) h1
  have b2 := bucket_eq_of_mem (nodupKeys_groupBy l) h2
  rw [b1] at b2
  exact Option.some.inj b2

/-- Sum form of the sequential risk accumulation. -/
theorem riskScore_eq (scans : List Scan) :
    riskScoreOf scans =
      (if rankingDropCond scans then (3:ℤ) else 0)
      + (if poorVisibilityCond scans then (2:ℤ) else 0)
      + (if lowEngagementCond scans then (1:ℤ) else 0) := by
  unfold riskScoreOf riskOf
  by_cases h1 : rankingDropCond scans <;> by_cases h2 : poorVisibilityCond scans <;>
    by_cases h3 : lowEngagementCond scans <;> simp [h1, h2, h3]

theorem rankingDropCond_two_scans {scans : List Scan} (h : rankingDropCond scans = true) :
    2 ≤ scans.length := by
  simp only [rankingDropCond, Bool.and_eq_true, decide_eq_true_eq] at h
  exact h.1.1.1

theorem lowEngagementCond_one_scan {scans : List Scan} (h : lowEngagementCond scans = true) :
    scans.length = 1 := by
  simpa [lowEngagementCond] using h

/-- Claim C8: grouping the scans by business name and concatenating the
per-business sequences back together is a permutation of the input, so
the grouping loses no scan record and duplicates none. -/
theorem claim_C8_group_flatten_perm (l : List Scan) :
    List.Perm ((groupByBusiness l).map Prod.snd).flatten l := by
  simpa using flat_foldl l []

/-- Claim C1 counterexample: the report builders do not sort the groups
by creation time.  On the upstream list [older, newer] the Acme group
keeps the input order, so it is not ordered newest-first by created_at
and the scan treated as latest is the older one. -/
theorem claim_C1_counterexample :
    ¬ (∀ p ∈ groupByBusiness c1ex,
        List.Pairwise (fun a b : Scan => b.created_at ≤ a.created_at) p.2) := by
  decide

/-- Claim C1 amended: the grouping performs no sort on creation time.
Each group is exactly the subsequence of the upstream list carrying that
business key, in upstream order, so the scan treated as latest is the
first scan of that business in upstream order, which is the newest one
only when the upstream list is already descending by time. -/
theorem claim_C1_amended {l : List Scan} {k : String} {ss : List Scan}
    (h : (k, ss) ∈ groupByBusiness l) :
    ss = l.filter (fun s => decide (keyName s = k)) :=
  groupBy_scans_eq_filter h

theorem claim_C1_witness :
    ("Acme", [c1scanOld, c1scanNew]) ∈ groupByBusiness c1ex ∧
      [c1scanOld, c1scanNew] = c1ex.filter (fun s => decide (keyName s = "Acme")) :=
  ⟨by decide, claim_C1_amended (by decide)⟩

/-- Claim C2: the risk score is the exact sum of the applicable weights,
3 for a ranking drop of more than 2 between the previous and latest
scan, 2 for a truthy latest rank above 15 and 1 for exactly one scan on
record; consequently a business with all three conditions would score
exactly 6. -/
theorem claim_C2_risk_score_sum (scans : List Scan) :
    riskScoreOf scans =
        3 * (if rankingDropCond scans then (1:ℤ) else 0)
      + 2 * (if poorVisibilityCond scans then (1:ℤ) else 0)
      + 1 * (if lowEngagementCond scans then (1:ℤ) else 0)
    ∧ (if rankingDropCond scans && poorVisibilityCond scans && lowEngagementCond scans
        then riskScoreOf scans else 6) = 6 := by
  have hs := riskScore_eq scans
  constructor
  · rw [hs]
    by_cases h1 : rankingDropCond scans <;> by_cases h2 : poorVisibilityCond scans <;>
      by_cases h3 : lowEngagementCond scans <;> simp [h1, h2, h3]
  · by_cases h1 : rankingDropCond scans <;> by_cases h2 : poorVisibilityCond scans <;>
      by_cases h3 : lowEngagementCond scans <;> simp [h1, h2, h3, hs]

/-- Claim C9: every entry of the at-risk output scores 1, 2, 3 or 5 and
never 4 or 6, because the drop factor requires at least two scans while
the low-engagement factor requires exactly one, so those two weights can
never be added for the same business. -/
theorem claim_C9_risk_score_values {l : List Scan} {e : AtRiskEntry}
    (h : e ∈ atRiskClients l) : e.risk_score ∈ ([1, 2, 3, 5] : List ℤ) := by
  have h1 : e ∈ atRiskPre l := (List.mem_insertionSort _).mp h
  obtain ⟨p, _, he⟩ := List.mem_filterMap.mp h1
  unfold atRiskEntryOf at he
  by_cases hpos : 0 < riskScoreOf p.2
  · rw [if_pos hpos] at he
    injection he with he
    subst he
    simp only
    rw [riskScore_eq] at hpos ⊢
    by_cases h1 : rankingDropCond p.2 <;> by_cases h2 : poorVisibilityCond p.2 <;>
      by_cases h3 : lowEngagementCond p.2 <;> simp [h1, h2, h3] at hpos ⊢
    · exact absurd (rankingDropCond_two_scans h1)
        (by simp [lowEngagementCond_one_scan h3])
    · exact absurd (rankingDropCond_two_scans h1)
        (by simp [lowEngagementCond_one_scan h3])
  · rw [if_neg hpos] at he
    cases he

theorem claim_C9_witness : c9entry.risk_score ∈ ([1, 2, 3, 5] : List ℤ) := by
  refine claim_C9_risk_score_values (l := c9ex) ?_
  have hg : groupByBusiness c9ex = [("Risky", [c9scan])] := by decide
  have hcond1 : rankingDropCond [c9scan] = false := by decide
  have hcond2 : poorVisibilityCond [c9scan] = true := by decide
  have hcond3 : lowEngagementCond [c9scan] = true := by decide
  have hrisk : riskOf [c9scan] =
      ([RiskFactor.poorVisibility (round1 (numVal (latestRank [c9scan]))), RiskFactor.lowEngagement], 3) := by
    unfold riskOf
    rw [hcond1, hcond2, hcond3]
    simp
  have hscore : riskScoreOf [c9scan] = 3 := by rw [riskScoreOf, hrisk]
  have hentry : atRiskEntryOf "Risky" [c9scan] = some c9entry := by
    unfold atRiskEntryOf
    rw [hscore]
    simp only [riskFactorsOf, hrisk]
    norm_num [c9entry, c9scan, latestRank, numVal]
  unfold atRiskClients atRiskPre
  rw [hg, show (List.filterMap (fun p => atRiskEntryOf p.1 p.2) [("Risky", [c9scan])])
      = [c9entry] by simp [hentry]]
  simp [List.insertionSort, List.orderedInsert]

instance atRiskRelTotal : IsTotal AtRiskEntry (fun a b => b.risk_score ≤ a.risk_score) :=
  ⟨fun a b => le_total b.risk_score a.risk_score⟩

instance atRiskRelTrans : IsTrans AtRiskEntry (fun a b => b.risk_score ≤ a.risk_score) :=
  ⟨fun _ _ _ hab hbc => le_trans hbc hab⟩

theorem clientEntry_mem {l : List Scan} {k : String} {ss : List Scan}
    (h : (k, ss) ∈ groupByBusiness l) : clientEntryOf k ss ∈ (portfolioSummary l).clients := by
  simp only [portfolioSummary]
  rw [List.mem_insertionSort]
  exact List.mem_map_of_mem _ h

/-- Claim C6: the at-risk list contains exactly the businesses with a
positive risk score, a zero score means absence rather than a zero-score
entry, the list is sorted descending by risk score, and entries of equal
score keep the aggregation order because the sort is stable. -/
theorem claim_C6_at_risk_shape {l : List Scan} {k : String} {ss : List Scan}
    (h : (k, ss) ∈ groupByBusiness l) (q : ℤ) :
    ((∃ e ∈ atRiskClients l, e.business_name = k) ↔ 0 < riskScoreOf ss)
    ∧ List.Sorted (fun a b => b.risk_score ≤ a.risk_score) (atRiskClients l)
    ∧ (atRiskClients l).filter (fun e => decide (e.risk_score = q)) =
        (atRiskPre l).filter (fun e => decide (e.risk_score = q)) := by
  refine ⟨?_, List.sorted_insertionSort _ _, ?_⟩
  · constructor
    · rintro ⟨e, he, hbn⟩
      have h1 : e ∈ atRiskPre l := (List.mem_insertionSort _).mp he
      obtain ⟨p, hp, hep⟩ := List.mem_filterMap.mp h1
      obtain ⟨k2, ss2⟩ := p
      unfold atRiskEntryOf at hep
      by_cases hpos : 0 < riskScoreOf ss2
      · rw [if_pos hpos] at hep
        injection hep with hep
        have hk : k2 = k := by rw [← hbn, ← hep]
        subst hk
        have := groupBy_mem_unique hp h
        rwa [← this]
      · rw [if_neg hpos] at hep; cases hep
    · intro hpos
      refine ⟨{ business_name := k, risk_score := riskScoreOf ss,
                risk_factors := riskFactorsOf ss, action := "Reach out proactively" },
              ?_, rfl⟩
      unfold atRiskClients
      rw [List.mem_insertionSort]
      exact List.mem_filterMap.mpr ⟨(k, ss), h, by unfold atRiskEntryOf; rw [if_pos hpos]⟩
  · have hall : ∀ x ∈ (atRiskPre l).filter (fun e => decide (e.risk_score = q)),
        x.risk_score = q := by
      intro x hx
      simpa using List.of_mem_filter hx
    have hpw : ((atRiskPre l).filter (fun e => decide (e.risk_score = q))).Pairwise
        (fun a b => b.risk_score ≤ a.risk_score) := by
      apply List.pairwise_of_forall_mem_list
      intro a ha b hb
      rw [hall a ha, hall b hb]
    have hsub : List.Sublist ((atRiskPre l).filter (fun e => decide (e.risk_score = q)))
        (atRiskClients l) :=
      List.sublist_insertionSort hpw (List.filter_sublist _)
    have hfix : ((atRiskPre l).filter (fun e => decide (e.risk_score = q))).filter
        (fun e => decide (e.risk_score = q)) =
        (atRiskPre l).filter (fun e => decide (e.risk_score = q)) :=
      List.filter_eq_self.mpr (fun a ha => by simp [hall a ha])
    have hsub2 : List.Sublist ((atRiskPre l).filter (fun e => decide (e.risk_score = q)))
        ((atRiskClients l).filter (fun e => decide (e.risk_score = q))) := by
      rw [← hfix]
      exact hsub.filter _
    have hlen : ((atRiskClients l).filter (fun e => decide (e.risk_score = q))).length =
        ((atRiskPre l).filter (fun e => decide (e.risk_score = q))).length :=
      ((List.perm_insertionSort _ (atRiskPre l)).filter _).length_eq
    exact (hsub2.eq_of_length hlen.symm).symm

theorem claim_C6_witness :
    ((∃ e ∈ atRiskClients c9ex, e.business_name = "Risky") ↔ 0 < riskScoreOf [c9scan])
    ∧ List.Sorted (fun a b : AtRiskEntry => b.risk_score ≤ a.risk_score) (atRiskClients c9ex)
    ∧ (atRiskClients c9ex).filter (fun e => decide (e.risk_score = 3)) =
        (atRiskPre c9ex).filter (fun e => decide (e.risk_score = 3)) :=
  claim_C6_at_risk_shape (by decide) 3

/-- Claim C3: in the portfolio summary a business with a computable
change is improving when previous minus latest exceeds 0.5, declining
when it is below minus 0.5 and stable otherwise, and a business with
fewer than two scans is new. -/
theorem claim_C3_status_classification {l : List Scan} {k : String} {ss : List Scan}
    (h : (k, ss) ∈ groupByBusiness l) :
    clientEntryOf k ss ∈ (portfolioSummary l).clients
    ∧ (ss.length < 2 → (clientEntryOf k ss).status = Status.new)
    ∧ (∀ latest prevScan rest, ss = latest :: prevScan :: rest →
        numTruthy latest.avg_rank = true → numTruthy prevScan.avg_rank = true →
        (clientEntryOf k ss).status =
          (if (0.5:ℚ) < numVal prevScan.avg_rank - numVal latest.avg_rank then Status.improving
           else if numVal prevScan.avg_rank - numVal latest.avg_rank < -(0.5:ℚ) then
             Status.declining
           else Status.stable)) := by
  refine ⟨clientEntry_mem h, ?_, ?_⟩
  · intro hlen
    match ss with
    | [] => simp [clientEntryOf]
    | [s] => simp [clientEntryOf, statusChangeOf]
    | a :: b :: t => simp [List.length_cons] at hlen; omega
  · rintro latest prevScan rest rfl ht1 ht2
    simp [clientEntryOf, statusChangeOf, ht1, ht2]

theorem claim_C3_witness :
    clientEntryOf "Acme" [c1scanNew, c1scanOld] ∈ (portfolioSummary c3ex).clients
    ∧ (clientEntryOf "Acme" [c1scanNew, c1scanOld]).status = Status.improving := by
  have h := @claim_C3_status_classification c3ex "Acme" [c1scanNew, c1scanOld] (by decide)
  refine ⟨h.1, ?_⟩
  have h3 := h.2.2 c1scanNew c1scanOld [] rfl (by decide) (by decide)
  rw [h3]
  norm_num [c1scanNew, c1scanOld, numVal]

/-- Claim C5: with a present average rank r, the dedicated finder check
selects a keyword exactly when r lies in the closed interval from 11 to
20, the embedded daily check exactly when r lies in the closed interval
from 11 to 15, and the finder entry is labelled High when r is at most
15 and Medium otherwise. -/
theorem claim_C5_quick_win_windows (kw : KeywordResult) (r : ℚ) (hr : kw.avg_rank = some r)
    (name : String) :
    (isQuickWinFinder kw = true ↔ (11 ≤ r ∧ r ≤ 20))
    ∧ (isQuickWinDaily kw = true ↔ (11 ≤ r ∧ r ≤ 15))
    ∧ (quickWinEntryOf name kw).opportunity = (if r ≤ 15 then "High" else "Medium") := by
  refine ⟨?_, ?_, ?_⟩
  · simp only [isQuickWinFinder, hr, numTruthy, numVal, Option.getD_some, Bool.and_eq_true,
      decide_eq_true_eq]
    constructor
    · rintro ⟨⟨-, h1⟩, h2⟩; exact ⟨h1, h2⟩
    · rintro ⟨h1, h2⟩
      refine ⟨⟨?_, h1⟩, h2⟩
      intro h0; rw [h0] at h1; norm_num at h1
  · simp only [isQuickWinDaily, hr, numTruthy, numVal, Option.getD_some, Bool.and_eq_true,
      decide_eq_true_eq]
    constructor
    · rintro ⟨⟨-, h1⟩, h2⟩; exact ⟨h1, h2⟩
    · rintro ⟨h1, h2⟩
      refine ⟨⟨?_, h1⟩, h2⟩
      intro h0; rw [h0] at h1; norm_num at h1
  · simp [quickWinEntryOf, hr, numVal]

theorem claim_C5_witness :
    isQuickWinFinder (kwAt 11) = true ∧ isQuickWinFinder (kwAt 20) = true
    ∧ isQuickWinFinder (kwAt (109/10)) = false ∧ isQuickWinFinder (kwAt (201/10)) = false
    ∧ isQuickWinDaily (kwAt 15) = true ∧ isQuickWinDaily (kwAt 16) = false
    ∧ (quickWinEntryOf "b" (kwAt 15)).opportunity = "High"
    ∧ (quickWinEntryOf "b" (kwAt 16)).opportunity = "Medium" := by
  have h11 := claim_C5_quick_win_windows (kwAt 11) 11 rfl "b"
  have h20 := claim_C5_quick_win_windows (kwAt 20) 20 rfl "b"
  have h109 := claim_C5_quick_win_windows (kwAt (109/10)) (109/10) rfl "b"
  have h201 := claim_C5_quick_win_windows (kwAt (201/10)) (201/10) rfl "b"
  have h15 := claim_C5_quick_win_windows (kwAt 15) 15 rfl "b"
  have h16 := claim_C5_quick_win_windows (kwAt 16) 16 rfl "b"
  refine ⟨h11.1.mpr (by norm_num), h20.1.mpr (by norm_num), ?_, ?_,
    h15.2.1.mpr (by norm_num), ?_, ?_, ?_⟩
  · refine Bool.eq_false_iff.mpr (fun hc => ?_)
    have := h109.1.mp hc
    norm_num at this
  · refine Bool.eq_false_iff.mpr (fun hc => ?_)
    have := h201.1.mp hc
    norm_num at this
  · refine Bool.eq_false_iff.mpr (fun hc => ?_)
    have := h16.2.1.mp hc
    norm_num at this
  · rw [h15.2.2]; norm_num
  · rw [h16.2.2]; norm_num

/-- Claim C7: when fewer than two scans are on record the client report
has empty wins and drops lists; the report shape carries no average-rank
delta field at all, so the missing comparison is never reported as a
zero delta. -/
theorem claim_C7_few_scans_no_deltas {cs : List Scan} {r : ClientReport}
    (h : clientReport cs = some r) (hlen : cs.length < 2) :
    r.wins = [] ∧ r.drops = [] := by
  match cs with
  | [] => simp [clientReport] at h
  | [latest] =>
    simp only [clientReport] at h
    injection h with h
    subst h
    exact ⟨rfl, rfl⟩
  | latest :: p :: t => simp [List.length_cons] at hlen; omega

theorem claim_C7_witness : c7report.wins = [] ∧ c7report.drops = [] :=
  @claim_C7_few_scans_no_deltas [c7scan] c7report (by decide) (by norm_num)

/-- Claim C4 counterexample: the portfolio summary does not omit the
view URL field when the latest scan has no share token; it emits the
field as an explicit null, which is a different output shape from an
absent field. -/
theorem claim_C4_counterexample :
    ((portfolioSummary [c4scan]).clients.map (fun e => e.view_url)) = [JField.null]
    ∧ (JField.null : JField String) ≠ JField.absent := by
  constructor
  · decide
  · decide

/-- Claim C4 amended: when the latest scan carries a truthy share token
both composed reports surface the view URL built from it; without one
the client report omits the field while the portfolio summary still
emits the field with an explicit null value. -/
theorem claim_C4_amended {l : List Scan} {k : String} {latest : Scan} {ss : List Scan}
    (h : (k, latest :: ss) ∈ groupByBusiness l)
    {cs : List Scan} {lat2 : Scan} {rest2 : List Scan} (hcs : cs = lat2 :: rest2)
    {r : ClientReport} (hr : clientReport cs = some r) :
    (clientEntryOf k (latest :: ss) ∈ (portfolioSummary l).clients
     ∧ (strTruthy latest.public_share_token = false →
         (clientEntryOf k (latest :: ss)).view_url = JField.null)
     ∧ (∀ t, latest.public_share_token = some t → t ≠ "" →
         (clientEntryOf k (latest :: ss)).view_url = JField.val (shareUrl t)))
    ∧ ((strTruthy lat2.public_share_token = false → r.view_url = none)
     ∧ (∀ t, lat2.public_share_token = some t → t ≠ "" →
         r.view_url = some (shareUrl t))) := by
  subst hcs
  simp only [clientReport] at hr
  injection hr with hr
  subst hr
  refine ⟨⟨clientEntry_mem h, ?_, ?_⟩, ?_, ?_⟩
  · intro hf; simp [clientEntryOf, hf]
  · intro t ht hne
    simp [clientEntryOf, ht, strTruthy, hne]
  · intro hf; simp [hf]
  · intro t ht hne
    simp [ht, strTruthy, hne]

theorem claim_C4_witness :
    (clientEntryOf "Tok" [c4tok]).view_url = JField.val (shareUrl "tok123")
    ∧ c4report.view_url = some (shareUrl "tok123") := by
  have h := @claim_C4_amended [c4tok] "Tok" c4tok [] (by decide) [c4tok] c4tok [] rfl
    c4report (by decide)
  exact ⟨h.1.2.2 "tok123" rfl (by decide), h.2.2 "tok123" rfl (by decide)⟩

/-! Invariance of the report builders under znorm: a rank of exactly 0
behaves like an absent rank everywhere in the cited commands. -/

theorem numTruthy_znorm (o : Option ℚ) : numTruthy (znorm o) = numTruthy o := by
  cases o with
  | none => rfl
  | some x =>
    by_cases h : x = 0
    · simp [znorm, numTruthy, h]
    · simp [znorm, numTruthy, h]

theorem numVal_znorm (o : Option ℚ) : numVal (znorm o) = numVal o := by
  cases o with
  | none => rfl
  | some x =>
    by_cases h : x = 0
    · simp [znorm, numVal, h]
    · simp [znorm, numVal, h]

theorem zScan_avg (s : Scan) : (zScan s).avg_rank = znorm s.avg_rank := rfl

theorem zScan_kws (s : Scan) : (zScan s).keyword_results = s.keyword_results.map zKw := rfl

theorem zScan_token (s : Scan) : (zScan s).public_share_token = s.public_share_token := rfl

theorem keyName_zScan (s : Scan) : keyName (zScan s) = keyName s := rfl

theorem zKw_avg (kw : KeywordResult) : (zKw kw).avg_rank = znorm kw.avg_rank := rfl

theorem insertScan_zScan (acc : List (String × List Scan)) (k : String) (s : Scan) :
    insertScan (acc.map zGroup) k (zScan s) = (insertScan acc k s).map zGroup := by
  induction acc with
  | nil => rfl
  | cons p rest ih =>
    by_cases h : p.1 = k
    · simp [insertScan, zGroup, h]
    · simp [insertScan, zGroup, h, ih]

theorem groupBy_zScan_aux (l : List Scan) :
    ∀ acc : List (String × List Scan),
      (l.map zScan).foldl (fun acc s => insertScan acc (keyName s) s) (acc.map zGroup) =
        (l.foldl (fun acc s => insertScan acc (keyName s) s) acc).map zGroup := by
  induction l with
  | nil => intro acc; rfl
  | cons s l ih =>
    intro acc
    rw [List.map_cons, List.foldl_cons, List.foldl_cons, keyName_zScan, insertScan_zScan]
    exact ih _

theorem groupBy_zScan (l : List Scan) :
    groupByBusiness (l.map zScan) = (groupByBusiness l).map zGroup := by
  simpa [groupByBusiness] using groupBy_zScan_aux l []

theorem statusChangeOf_zScan (scans : List Scan) :
    statusChangeOf (scans.map zScan) = statusChangeOf scans := by
  match scans with
  | [] => rfl
  | [s] => rfl
  | a :: b :: t =>
    simp only [List.map_cons, statusChangeOf, zScan_avg, numTruthy_znorm, numVal_znorm]

theorem clientEntryOf_zScan (k : String) (scans : List Scan) :
    clientEntryOf k (scans.map zScan) = clientEntryOf k scans := by
  match scans with
  | [] => rfl
  | latest :: rest =>
    have hsc : statusChangeOf (zScan latest :: rest.map zScan) =
        statusChangeOf (latest :: rest) := by
      rw [show zScan latest :: rest.map zScan = (latest :: rest).map zScan from
        (List.map_cons _ _ _).symm, statusChangeOf_zScan]
    simp only [List.map_cons, clientEntryOf, hsc, zScan_avg, numTruthy_znorm, numVal_znorm,
      zScan_token]

theorem rankContribution_zScan (ss : List Scan) :
    rankContribution (ss.map zScan) = rankContribution ss := by
  cases ss with
  | nil => rfl
  | cons s t =>
    simp only [List.map_cons, rankContribution, zScan_avg, numTruthy_znorm, numVal_znorm]

theorem rankCounted_zScan (ss : List Scan) : rankCounted (ss.map zScan) = rankCounted ss := by
  cases ss with
  | nil => rfl
  | cons s t => simp only [List.map_cons, rankCounted, zScan_avg, numTruthy_znorm]

theorem portfolioSummary_zScan (l : List Scan) :
    portfolioSummary (l.map zScan) = portfolioSummary l := by
  have hentries : ((groupByBusiness l).map zGroup).map (fun p => clientEntryOf p.1 p.2) =
      (groupByBusiness l).map (fun p => clientEntryOf p.1 p.2) := by
    rw [List.map_map]
    exact List.map_congr_left
      (fun p _ => by simpa [Function.comp, zGroup] using clientEntryOf_zScan p.1 p.2)
  have hcontrib : ((groupByBusiness l).map zGroup).map (fun p => rankContribution p.2) =
      (groupByBusiness l).map (fun p => rankContribution p.2) := by
    rw [List.map_map]
    exact List.map_congr_left
      (fun p _ => by simpa [Function.comp, zGroup] using rankContribution_zScan p.2)
  have hcount : (((groupByBusiness l).map zGroup).filter (fun p => rankCounted p.2)).length =
      ((groupByBusiness l).filter (fun p => rankCounted p.2)).length := by
    rw [List.filter_map, List.length_map]
    congr 1
    exact List.filter_congr
      (fun p _ => by simpa [Function.comp, zGroup] using rankCounted_zScan p.2)
  simp only [portfolioSummary, groupBy_zScan, hentries, hcontrib, hcount, List.length_map]

theorem latestRank_zScan (ss : List Scan) : latestRank (ss.map zScan) = znorm (latestRank ss) := by
  cases ss with
  | nil => rfl
  | cons s t => rfl

theorem prevRank_zScan (ss : List Scan) : prevRank (ss.map zScan) = znorm (prevRank ss) := by
  match ss with
  | [] => rfl
  | [s] => rfl
  | a :: b :: t => rfl

theorem rankingDropCond_zScan (ss : List Scan) :
    rankingDropCond (ss.map zScan) = rankingDropCond ss := by
  simp only [rankingDropCond, latestRank_zScan, prevRank_zScan, numTruthy_znorm, numVal_znorm,
    List.length_map]

theorem poorVisibilityCond_zScan (ss : List Scan) :
    poorVisibilityCond (ss.map zScan) = poorVisibilityCond ss := by
  simp only [poorVisibilityCond, latestRank_zScan, numTruthy_znorm, numVal_znorm]

theorem lowEngagementCond_zScan (ss : List Scan) :
    lowEngagementCond (ss.map zScan) = lowEngagementCond ss := by
  simp only [lowEngagementCond, List.length_map]

theorem riskOf_zScan (ss : List Scan) : riskOf (ss.map zScan) = riskOf ss := by
  simp only [riskOf, rankingDropCond_zScan, poorVisibilityCond_zScan, lowEngagementCond_zScan,
    latestRank_zScan, prevRank_zScan, numVal_znorm]

theorem atRiskPre_zScan (l : List Scan) : atRiskPre (l.map zScan) = atRiskPre l := by
  unfold atRiskPre
  rw [groupBy_zScan, List.filterMap_map]
  exact List.filterMap_congr
    (fun p _ => by
      simp [Function.comp, zGroup, atRiskEntryOf, riskScoreOf, riskFactorsOf, riskOf_zScan])

theorem atRiskClients_zScan (l : List Scan) : atRiskClients (l.map zScan) = atRiskClients l := by
  unfold atRiskClients
  rw [atRiskPre_zScan]

theorem isQuickWinFinder_zKw (kw : KeywordResult) :
    isQuickWinFinder (zKw kw) = isQuickWinFinder kw := by
  simp only [isQuickWinFinder, zKw_avg, numTruthy_znorm, numVal_znorm]

theorem isQuickWinDaily_zKw (kw : KeywordResult) :
    isQuickWinDaily (zKw kw) = isQuickWinDaily kw := by
  simp only [isQuickWinDaily, zKw_avg, numTruthy_znorm, numVal_znorm]

theorem quickWinEntryOf_zKw (n : String) (kw : KeywordResult) :
    quickWinEntryOf n (zKw kw) = quickWinEntryOf n kw := by
  simp only [quickWinEntryOf, zKw_avg, numVal_znorm]
  rfl

theorem nameMatches_zScan (s : Scan) (f : String) : nameMatches (zScan s) f = nameMatches s f :=
  rfl

theorem firstScan_zScan_aux (l : List Scan) :
    ∀ acc : List (String × Scan),
      (l.map zScan).foldl
        (fun acc s =>
          if acc.any (fun p => decide (p.1 = keyName s)) then acc
          else acc ++ [(keyName s, s)]) (acc.map zFirst) =
      (l.foldl
        (fun acc s =>
          if acc.any (fun p => decide (p.1 = keyName s)) then acc
          else acc ++ [(keyName s, s)]) acc).map zFirst := by
  induction l with
  | nil => intro acc; rfl
  | cons s l ih =>
    intro acc
    rw [List.map_cons, List.foldl_cons, List.foldl_cons]
    have hany : (acc.map zFirst).any (fun p => decide (p.1 = keyName (zScan s))) =
        acc.any (fun p => decide (p.1 = keyName s)) := by
      rw [List.any_map]
      rfl
    rw [hany]
    by_cases h : acc.any (fun p => decide (p.1 = keyName s))
    · rw [if_pos h, if_pos h]
      exact ih acc
    · rw [if_neg h, if_neg h, keyName_zScan,
        show acc.map zFirst ++ [(keyName s, zScan s)] =
          (acc ++ [(keyName s, s)]).map zFirst by simp [zFirst]]
      exact ih _

theorem firstScanByBusiness_zScan (l : List Scan) :
    firstScanByBusiness (l.map zScan) = (firstScanByBusiness l).map zFirst := by
  simpa [firstScanByBusiness] using firstScan_zScan_aux l []

theorem quickWins_list_zScan (scans0 : List Scan) :
    (firstScanByBusiness (scans0.map zScan)).flatMap
        (fun p => (p.2.keyword_results.filter isQuickWinFinder).map (quickWinEntryOf p.1)) =
      (firstScanByBusiness scans0).flatMap
        (fun p => (p.2.keyword_results.filter isQuickWinFinder).map (quickWinEntryOf p.1)) := by
  rw [firstScanByBusiness_zScan, List.flatMap_map]
  rw [List.flatMap_def, List.flatMap_def]
  congr 1
  apply List.map_congr_left
  intro p _
  show ((zScan p.2).keyword_results.filter isQuickWinFinder).map (quickWinEntryOf p.1) = _
  rw [zScan_kws, List.filter_map,
    List.filter_congr (fun kw _ => by simpa [Function.comp] using isQuickWinFinder_zKw kw),
    List.map_map]
  exact List.map_congr_left
    (fun kw _ => by simpa [Function.comp] using quickWinEntryOf_zKw p.1 kw)

theorem quickWinsFind_zScan (filt : Option String) (l : List Scan) :
    quickWinsFind filt (l.map zScan) = quickWinsFind filt l := by
  unfold quickWinsFind
  have hscans : (match filt.map String.toLower with
      | some f =>
        if f = "" then l.map zScan else (l.map zScan).filter (fun s => nameMatches s f)
      | none => l.map zScan) =
      (match filt.map String.toLower with
      | some f => if f = "" then l else l.filter (fun s => nameMatches s f)
      | none => l).map zScan := by
    cases filt with
    | none => rfl
    | some f =>
      by_cases hf : f.toLower = ""
      · simp [hf]
      · have hfilter : (l.map zScan).filter (fun s => nameMatches s f.toLower) =
            (l.filter (fun s => nameMatches s f.toLower)).map zScan := by
          rw [List.filter_map]
          congr 1
        simpa [hf] using hfilter
  rw [hscans]
  simp only [quickWins_list_zScan]

/-- Claim C10: an average rank of exactly 0 is treated like an absent
rank by the three cited commands: replacing every 0 rank by an absent
rank changes none of the portfolio summary, quick-win finder or at-risk
outputs, a business whose latest rank is 0 is classified new with a null
change and a null rank, contributes no portfolio-wide average, a keyword
with rank 0 is never selected by either quick-win check, and a latest
rank of 0 yields the same risk factors and score as an absent rank. -/
theorem claim_C10_zero_rank_like_absent (l : List Scan) (filt : Option String) (s : Scan)
    (rest : List Scan) (name : String) (kw : KeywordResult) :
    portfolioSummary (l.map zScan) = portfolioSummary l
    ∧ quickWinsFind filt (l.map zScan) = quickWinsFind filt l
    ∧ atRiskClients (l.map zScan) = atRiskClients l
    ∧ (clientEntryOf name ({ s with avg_rank := some 0 } :: rest)).status = Status.new
    ∧ (clientEntryOf name ({ s with avg_rank := some 0 } :: rest)).change = none
    ∧ (clientEntryOf name ({ s with avg_rank := some 0 } :: rest)).avg_rank = none
    ∧ (portfolioSummary [{ s with avg_rank := some 0 }]).avg_rank_across_portfolio = none
    ∧ isQuickWinDaily { kw with avg_rank := some 0 } = false
    ∧ isQuickWinFinder { kw with avg_rank := some 0 } = false
    ∧ riskOf ({ s with avg_rank := some 0 } :: rest) =
        riskOf ({ s with avg_rank := none } :: rest) := by
  refine ⟨portfolioSummary_zScan l, quickWinsFind_zScan filt l, atRiskClients_zScan l,
    ?_, ?_, ?_, ?_, ?_, ?_, ?_⟩
  · cases rest with
    | nil => simp [clientEntryOf, statusChangeOf]
    | cons b t => simp [clientEntryOf, statusChangeOf, numTruthy]
  · cases rest with
    | nil => simp [clientEntryOf, statusChangeOf]
    | cons b t => simp [clientEntryOf, statusChangeOf, numTruthy]
  · simp [clientEntryOf, numTruthy]
  · simp [portfolioSummary, groupByBusiness, insertScan, rankCounted, numTruthy]
  · simp [isQuickWinDaily, numTruthy]
  · simp [isQuickWinFinder, numTruthy]
  · simp only [riskOf, rankingDropCond, poorVisibilityCond, lowEngagementCond, latestRank,
      prevRank, numTruthy]
    simp

end LocalRank
